import Mathlib

/-!
Verification of the unimock call-pattern engine (registration, matching,
responder selection, quantification) against its specification.

The Lean definitions below are a shallow embedding of the Rust sources:

* `src/eval.rs` — the dispatch/eval engine (`eval_responder`,
  `eval_type_erased_mock_impl`, `match_pattern`, `select_responder_for_call`);
* `src/call_pattern.rs` — the binary-search responder lookup
  (`find_responder_by_call_index`) and the responder list data model;
* `src/error.rs` — the `MockError` taxonomy;
* `src/build.rs` — the fluent pattern builder (`push_responder`, `quantify`,
  `QuantifyReturnValue` with its `once` / `n_times` / `at_least_times` /
  `Drop` paths, `QuantifiedResponse::then`).

Rust `usize` values are modelled as `Nat` (no arithmetic in the sources can
overflow in any reachable state, and `usize::MAX` overflow on `usize`
subtraction is modelled explicitly as a panic where it matters).  Atomic
counters become explicit state passing.  Panics are modelled as `Except`
errors.  Type parameters `I` (inputs) and `V` (output values) replace the
type-erased `dyn Any` machinery: the downcast that unimock performs is keyed
by the same function identity used to store the value, so it is made
infallible here by typing.
-/

namespace Unimock

/-- `counter::Exactness` (counter.rs is not under src/; the variant names are
taken from `build.rs`'s uses `Exactness::Exact`, `Exactness::AtLeast`,
`Exactness::AtLeastPlusOne`). -/
inductive Exactness where
  | Exact
  | AtLeast
  | AtLeastPlusOne
deriving DecidableEq, Repr

/-- Modelled from the spec: `counter::CallCountExpectation` (counter.rs is
missing from src/).  Spec §3/§4.1: a Quantification is a
{ minimum call count, exactness class } pair; the default (never-quantified)
expectation behaves like `at_least_times(0)` (spec §8 round-trip), which we
model as `none`. -/
def CallCountExpectation : Type := Option (Nat × Exactness)

/-- Modelled from the spec: `CallCountExpectation::add_to_minimum` (spec §4.1
`accumulate(count, exactness)`): raises the minimum by `count`; the aggregate
exactness stays `Exact` only while every accumulation is `Exact`, any other
accumulation downgrades it to an at-least constraint. -/
def add_to_minimum (e : CallCountExpectation) (times : Nat) (exactness : Exactness) :
    CallCountExpectation :=
  match e with
  | none => some (times, exactness)
  | some (minimum, old) =>
    some (minimum + times,
      match old, exactness with
      | Exactness.Exact, Exactness.Exact => Exactness.Exact
      | _, _ => Exactness.AtLeast)

/-- Modelled from the spec: `CallCountExpectation::is_satisfied` (spec §4.1):
`actual == minimum` when Exact, `actual >= minimum` otherwise; the
`AtLeastPlusOne` floor demands at least one call more than the recorded
minimum (spec §4.3 `then()`); the default expectation accepts any count
(spec §8 round-trip). -/
def is_satisfied (e : CallCountExpectation) (actual : Nat) : Bool :=
  match e with
  | none => true
  | some (minimum, Exactness.Exact) => actual == minimum
  | some (minimum, Exactness.AtLeast) => minimum ≤ actual
  | some (minimum, Exactness.AtLeastPlusOne) => minimum + 1 ≤ actual

/-- The storage slot behind a `ValueResponder` (`build.rs` pushes either a
`StoredValueSlot` — cloneable, yields any number of times — or a
`StoredValueSlotOnce`).  The once-slot's interior cell is modelled as an
`Option` that is emptied on the first take (spec §3: Owned-once "yields it
exactly once, then becomes empty"). -/
inductive StoredValue (V : Type) where
  | Slot (value : V)
  | SlotOnce (cell : Option V)
deriving DecidableEq, Repr

/-- `StoredValue::box_clone` as used by `eval_sized` in eval.rs: a cloneable
slot yields a copy and keeps its value; a once-slot yields its value and
becomes empty; an empty once-slot yields nothing (the "already consumed"
error). -/
def box_clone (s : StoredValue V) : Option V × StoredValue V :=
  match s with
  | StoredValue.Slot value => (some value, StoredValue.Slot value)
  | StoredValue.SlotOnce (some value) => (some value, StoredValue.SlotOnce none)
  | StoredValue.SlotOnce none => (none, StoredValue.SlotOnce none)

/-- `Responder<F>` from eval.rs (the tagged responder variants matched by
`eval_sized` / `eval_unsized_*`). -/
inductive Responder (I V : Type) where
  | Value (stored : StoredValue V)
  | Closure (f : I → V)
  | StaticRefClosure (f : I → V)
  | Borrowable (value : V)
  | Panic (msg : String)
  | Unmock

/-- `DynCallOrderResponder` / `call_pattern.rs`'s
`{ response_index, responder }` entry, generic over the responder payload. -/
structure DynCallOrderResponder (R : Type) where
  response_index : Nat
  responder : R
deriving DecidableEq, Repr

/-- `CallPattern<F>` as consumed by eval.rs: the input matcher, the responder
entries ordered by response index, and the pattern's allocated global-order
range (`ordered_call_index_range` in call_pattern.rs, stored behind
`non_generic` in eval.rs).  The pattern's atomic call counter is threaded
explicitly through the evaluation functions instead of living in the
structure. -/
structure CallPattern (I R : Type) where
  input_matcher : I → Bool
  responders : List (DynCallOrderResponder R)
  ordered_call_index_range : Nat × Nat

/-- Modelled from the spec: `matches_global_call_index` (fn_mocker /
mock_impl source is not under src/; eval.rs calls it on the pattern's
non-generic data).  Spec §4.5: "find the single pattern whose allocated
global-order range contains that position"; the range is half-open as
`core::ops::Range` always is. -/
def matches_global_call_index (p : CallPattern I R) (index : Nat) : Bool :=
  decide (p.ordered_call_index_range.1 ≤ index ∧ index < p.ordered_call_index_range.2)

/-- Modelled from the spec: `expected_range` (fn_mocker / mock_impl source is
not under src/): reports the pattern's allocated ordered call index range for
the `CallOrderNotMatchedForMockFn` diagnostic. -/
def expected_range (p : CallPattern I R) : Nat × Nat :=
  p.ordered_call_index_range

/-- `TypedMockImpl<F>`: the per-function registry entry holding the
registered call patterns in registration order. -/
structure TypedMockImpl (I R : Type) where
  patterns : List (CallPattern I R)

/-- `PatternMatchMode` (strict call order vs unordered). -/
inductive PatternMatchMode where
  | InOrder
  | InAnyOrder
deriving DecidableEq, Repr

/-- `FallbackMode` (error out vs unmock/delegate on a failed lookup). -/
inductive FallbackMode where
  | Error
  | Unmock
deriving DecidableEq, Repr

/-- `MockError` from error.rs, with the diagnostic payloads the claims are
about (`&'static str` names and debug strings become `String`, ranges become
`Nat × Nat` pairs). -/
inductive MockError where
  | Downcast (name : String)
  | NoMockImplementation (name : String)
  | NoRegisteredCallPatterns (name : String) (inputs_debug : String)
  | NoMatchingCallPatterns (name : String) (inputs_debug : String)
  | NoOutputAvailableForCallPattern (name : String) (inputs_debug : String) (pat_index : Nat)
  | MockNeverCalled (name : String)
  | CallOrderNotMatchedForMockFn (name : String) (inputs_debug : String)
      (actual_call_order : Nat) (expected_ranges : List (Nat × Nat))
  | InputsNotMatchedInCallOrder (name : String) (inputs_debug : String)
      (actual_call_order : Nat) (pat_index : Nat)
  | CannotBorrowValueStatically (name : String) (inputs_debug : String) (pat_index : Nat)
  | CannotBorrowValueProducedByClosure (name : String) (inputs_debug : String) (pat_index : Nat)
  | FailedVerification (msg : String)
  | CannotUnmock (name : String)
deriving DecidableEq, Repr

/-- `enum Eval<C> { Continue(C), Unmock }` from eval.rs. -/
inductive Eval (C : Type) where
  | Continue (c : C)
  | Unmock

/-- `.iter().enumerate().find(pred)` over a list, as used twice in
`match_pattern`. -/
def find_enumerate (pred : α → Bool) : List α → Nat → Option (Nat × α)
  | [], _ => none
  | x :: xs, i => if pred x then some (i, x) else find_enumerate pred xs (i + 1)

/-- The loop body of `select_responder_for_call` (eval.rs lines 223–231):
walk the responder entries in order, remember the last one whose
`response_index` does not exceed the call index, and stop at the first entry
past it. -/
def select_responder_loop (call_index : Nat) :
    List (DynCallOrderResponder R) → Option R → Option R
  | [], responder => responder
  | entry :: rest, responder =>
    if call_index < entry.response_index then responder
    else select_responder_loop call_index rest (some entry.responder)

/-- `select_responder_for_call` (eval.rs): fetch-and-add the pattern's call
counter to obtain this call's local call index, then scan the responder list.
The counter is passed and returned explicitly. -/
def select_responder_for_call (pat : CallPattern I R) (counter : Nat) : Option R × Nat :=
  (select_responder_loop counter pat.responders none, counter + 1)

/-- Rust `slice::binary_search_by` specialised to searching the
`response_index` fields for `call_index`, exactly as invoked by
`find_responder_by_call_index` (call_pattern.rs line 251).  Mirrors the
standard library's loop: probe the middle of `[left, right)`, narrow the
interval, answer `Except.ok found_index` or `Except.error insertion_point`. -/
def binary_search_by (idxs : List Nat) (target left right : Nat) : Except Nat Nat :=
  if _h : left < right then
    let mid := left + (right - left) / 2
    match compare (idxs.getD mid 0) target with
    | Ordering.lt => binary_search_by idxs target (mid + 1) right
    | Ordering.gt => binary_search_by idxs target left mid
    | Ordering.eq => Except.ok mid
  else
    Except.error left
termination_by right - left
decreasing_by
  · omega
  · have : (right - left) / 2 < right - left := Nat.div_lt_self (by omega) (by omega)
    omega

/-- `find_responder_by_call_index` (call_pattern.rs lines 242–257): empty
list ⇒ no responder; otherwise binary-search the response indices; an exact
hit is returned directly, and a miss returns the entry just before the
insertion point.  When the insertion point is 0 the source computes
`insert_index - 1` on a `usize`, which panics (overflow in debug builds,
out-of-bounds indexing in release builds); the panic is modelled as
`Except.error`. -/
def find_responder_by_call_index (responders : List (DynCallOrderResponder R))
    (call_index : Nat) : Except String (Option R) :=
  if responders.isEmpty then Except.ok none
  else
    match binary_search_by (responders.map (·.response_index)) call_index 0
        responders.length with
    | Except.ok index =>
      match responders.get? index with
      | some entry => Except.ok (some entry.responder)
      | none => Except.error "index out of bounds"
    | Except.error 0 => Except.error "attempt to subtract with overflow"
    | Except.error (j + 1) =>
      match responders.get? j with
      | some entry => Except.ok (some entry.responder)
      | none => Except.error "index out of bounds"

end Unimock

namespace Unimock

-- Sanity checks against the unit test in call_pattern.rs
-- (`should_select_responder_with_lower_call_index`).
example :
    find_responder_by_call_index
      ([] : List (DynCallOrderResponder Nat)) 42 = Except.ok none := by
  simp [find_responder_by_call_index]

example :
    find_responder_by_call_index
      [⟨0, (0 : Nat)⟩, ⟨5, 5⟩] 0 = Except.ok (some 0) := by
  simp [find_responder_by_call_index, binary_search_by]
  rfl

example :
    find_responder_by_call_index
      [⟨0, (0 : Nat)⟩, ⟨5, 5⟩] 4 = Except.ok (some 0) := by
  simp [find_responder_by_call_index, binary_search_by]
  rfl

example :
    find_responder_by_call_index
      [⟨0, (0 : Nat)⟩, ⟨5, 5⟩] 5 = Except.ok (some 5) := by
  simp [find_responder_by_call_index, binary_search_by]
  rfl

example :
    find_responder_by_call_index
      [⟨0, (0 : Nat)⟩, ⟨5, 5⟩] 7 = Except.ok (some 5) := by
  simp [find_responder_by_call_index, binary_search_by]
  rfl

example :
    select_responder_loop 7 [⟨0, (0 : Nat)⟩, ⟨5, 5⟩] none = some 5 := by decide

example :
    select_responder_loop 0 [⟨1, (10 : Nat)⟩] none = none := by decide

example :
    find_responder_by_call_index [⟨1, (10 : Nat)⟩] 0 =
      Except.error "attempt to subtract with overflow" := by
  simp [find_responder_by_call_index, binary_search_by]
  rfl

end Unimock

namespace Unimock

/-! ## The dispatch/eval engine (eval.rs) -/

/-- The mutable per-instance state touched on the hot path: the instance's
global ordered call index (`call_index: &AtomicUsize` in eval.rs) and each
registered pattern's own call counter (`pat.non_generic.increase_call_counter`),
kept as a list parallel to the registered pattern list. -/
structure EvalState where
  call_index : Nat
  pattern_counters : List Nat
deriving DecidableEq, Repr

/-- `eval_type_erased_mock_impl` (eval.rs lines 152–168): absent registry
entry ⇒ `NoMockImplementation` under the error fallback, `Eval::Unmock`
(skip/delegate) under the unmock fallback; present entry continues with the
typed impl and its pattern match mode. -/
def eval_type_erased_mock_impl (dyn_impl : Option (TypedMockImpl I R × PatternMatchMode))
    (name : String) (fallback_mode : FallbackMode) :
    Except MockError (Eval (TypedMockImpl I R × PatternMatchMode)) :=
  match dyn_impl with
  | none =>
    match fallback_mode with
    | FallbackMode.Error => Except.error (MockError.NoMockImplementation name)
    | FallbackMode.Unmock => Except.ok Eval.Unmock
  | some dyn_impl => Except.ok (Eval.Continue dyn_impl)

/-- `match_pattern` (eval.rs lines 170–218).  `InOrder`: fetch-and-add the
global call index first ("stubs should not influence it"), find the first
pattern whose allocated range covers the obtained position, report
`CallOrderNotMatchedForMockFn` with all expected ranges when none does, and
`InputsNotMatchedInCallOrder` when the covering pattern's matcher rejects the
inputs.  `InAnyOrder`: first pattern in registration order whose matcher
accepts the inputs; the global call index is untouched.  The global call
index is passed and returned explicitly. -/
def match_pattern (mode : PatternMatchMode) (mock_impl : TypedMockImpl I R) (inputs : I)
    (name : String) (debug_inputs : I → String) (call_index : Nat) :
    Except MockError (Option (Nat × CallPattern I R)) × Nat :=
  match mode with
  | PatternMatchMode.InOrder =>
    let current_call_index := call_index
    match find_enumerate (fun pattern => matches_global_call_index pattern current_call_index)
        mock_impl.patterns 0 with
    | none =>
      (Except.error (MockError.CallOrderNotMatchedForMockFn name (debug_inputs inputs)
          current_call_index (mock_impl.patterns.map expected_range)),
        current_call_index + 1)
    | some (pat_index, pattern_by_call_index) =>
      if pattern_by_call_index.input_matcher inputs then
        (Except.ok (some (pat_index, pattern_by_call_index)), current_call_index + 1)
      else
        (Except.error (MockError.InputsNotMatchedInCallOrder name (debug_inputs inputs)
            current_call_index pat_index),
          current_call_index + 1)
  | PatternMatchMode.InAnyOrder =>
    (Except.ok (find_enumerate (fun pattern => pattern.input_matcher inputs)
        mock_impl.patterns 0),
      call_index)

/-- `eval_responder` (eval.rs lines 118–150): locate the typed impl, match a
pattern, then select the active responder for the matched pattern's next
local call index; a matched pattern with no selectable responder fails with
`NoOutputAvailableForCallPattern`, and no matching pattern fails with
`NoMatchingCallPatterns` or is skipped, per the fallback mode.  The `Downcast`
failure cannot occur here because the typed embedding stores and recovers the
impl at the same type.  The per-pattern call counter of the selected pattern
is fetch-and-added exactly when `select_responder_for_call` runs. -/
def eval_responder (dyn_impl : Option (TypedMockImpl I R × PatternMatchMode)) (inputs : I)
    (name : String) (debug_inputs : I → String) (fallback_mode : FallbackMode)
    (st : EvalState) : Except MockError (Eval (Nat × R)) × EvalState :=
  match eval_type_erased_mock_impl dyn_impl name fallback_mode with
  | Except.error e => (Except.error e, st)
  | Except.ok Eval.Unmock => (Except.ok Eval.Unmock, st)
  | Except.ok (Eval.Continue (typed_impl, pattern_match_mode)) =>
    match match_pattern pattern_match_mode typed_impl inputs name debug_inputs st.call_index with
    | (Except.error e, call_index2) =>
      (Except.error e, { st with call_index := call_index2 })
    | (Except.ok none, call_index2) =>
      match fallback_mode with
      | FallbackMode.Error =>
        (Except.error (MockError.NoMatchingCallPatterns name (debug_inputs inputs)),
          { st with call_index := call_index2 })
      | FallbackMode.Unmock =>
        (Except.ok Eval.Unmock, { st with call_index := call_index2 })
    | (Except.ok (some (pat_index, pattern)), call_index2) =>
      let counter := st.pattern_counters.getD pat_index 0
      let selected := select_responder_for_call pattern counter
      let st2 : EvalState :=
        { call_index := call_index2,
          pattern_counters := st.pattern_counters.set pat_index selected.2 }
      match selected.1 with
      | some responder => (Except.ok (Eval.Continue (pat_index, responder)), st2)
      | none =>
        (Except.error (MockError.NoOutputAvailableForCallPattern name (debug_inputs inputs)
            pat_index),
          st2)

/-! ## The pattern builder (build.rs) -/

/-- `DynCallPatternBuilder` (build.rs lines 10–30).  The `responders2` vector
of the in-progress v2 API is omitted: no claim and no evaluation path in
eval.rs consumes it. -/
structure DynCallPatternBuilder (I R : Type) where
  pattern_match_mode : PatternMatchMode
  input_matcher : I → Bool
  responders : List (DynCallOrderResponder R)
  count_expectation : CallCountExpectation
  current_response_index : Nat

/-- `DynCallPatternBuilder::new`: empty responder list, default count
expectation, response index 0. -/
def DynCallPatternBuilder.new (pattern_match_mode : PatternMatchMode)
    (input_matcher : I → Bool) : DynCallPatternBuilder I R :=
  { pattern_match_mode := pattern_match_mode
    input_matcher := input_matcher
    responders := []
    count_expectation := none
    current_response_index := 0 }

/-- `BuilderWrapper::push_responder` (build.rs lines 61–67): append the
responder at the builder's current response index. -/
def push_responder (b : DynCallPatternBuilder I R) (responder : R) :
    DynCallPatternBuilder I R :=
  { b with
      responders := b.responders ++ [⟨b.current_response_index, responder⟩] }

/-- `BuilderWrapper::quantify` (build.rs lines 77–83): accumulate the count
expectation and advance the current response index by `times`. -/
def quantify (b : DynCallPatternBuilder I R) (times : Nat) (exactness : Exactness) :
    DynCallPatternBuilder I R :=
  { b with
      count_expectation := add_to_minimum b.count_expectation times exactness
      current_response_index := b.current_response_index + times }

/-- `DefineMultipleResponses::returns` (build.rs lines 199–212): push a
cloneable value responder (`StoredValueSlot`) at the current response index;
quantification happens later on the returned `Quantify`. -/
def define_multiple_responses_returns (b : DynCallPatternBuilder I (Responder I V))
    (value : V) : DynCallPatternBuilder I (Responder I V) :=
  push_responder b (Responder.Value (StoredValue.Slot value))

/-- `Quantify::once` (build.rs lines 479–482). -/
def quantify_once (b : DynCallPatternBuilder I R) : DynCallPatternBuilder I R :=
  quantify b 1 Exactness.Exact

/-- `Quantify::n_times` (build.rs lines 485–488). -/
def quantify_n_times (b : DynCallPatternBuilder I R) (times : Nat) :
    DynCallPatternBuilder I R :=
  quantify b times Exactness.Exact

/-- `Quantify::at_least_times` (build.rs lines 491–499). -/
def quantify_at_least_times (b : DynCallPatternBuilder I R) (times : Nat) :
    DynCallPatternBuilder I R :=
  quantify b times Exactness.AtLeast

/-- `QuantifiedResponse::then` (build.rs lines 544–562): record the
`AtLeastPlusOne` floor (adding 0 to the minimum) and reopen the builder for
the next responder stage; the current response index is not changed. -/
def quantified_response_then (b : DynCallPatternBuilder I R) :
    DynCallPatternBuilder I R :=
  { b with
      count_expectation := add_to_minimum b.count_expectation 0 Exactness.AtLeastPlusOne }

/-- `QuantifyReturnValue` (build.rs lines 356–365): a builder holding one
pending return value for which no `Clone` bound has been established. -/
structure QuantifyReturnValue (I V : Type) where
  builder : DynCallPatternBuilder I (Responder I V)
  value : Option V

/-- `DefineResponse::returns` (build.rs lines 171–182): stash the value,
pushing nothing yet. -/
def define_response_returns (b : DynCallPatternBuilder I (Responder I V)) (value : V) :
    QuantifyReturnValue I V :=
  { builder := b, value := some value }

/-- `QuantifyReturnValue::once` (build.rs lines 376–390): take the pending
value, push it as a once-only responder (`StoredValueSlotOnce`) and quantify
exactly one call.  `self.value.take().unwrap()` panics when the value is
already gone, modelled as `none`. -/
def quantify_return_value_once (q : QuantifyReturnValue I V) :
    Option (DynCallPatternBuilder I (Responder I V)) :=
  match q.value with
  | some value =>
    some (quantify
      (push_responder q.builder (Responder.Value (StoredValue.SlotOnce (some value))))
      1 Exactness.Exact)
  | none => none

/-- `Drop for QuantifyReturnValue` (build.rs lines 449–464): when the pending
value was never taken, push it as a once-only responder.  No `quantify` call
is made on this path. -/
def quantify_return_value_drop (q : QuantifyReturnValue I V) :
    DynCallPatternBuilder I (Responder I V) :=
  match q.value with
  | some value =>
    push_responder q.builder (Responder.Value (StoredValue.SlotOnce (some value)))
  | none => q.builder

/-- `ClauseSealed for QuantifyReturnValue` (build.rs lines 433–442): using
the unquantified builder directly as a terminal clause deconstructs it via
`self.once()`. -/
def quantify_return_value_deconstruct (q : QuantifyReturnValue I V) :
    Option (DynCallPatternBuilder I (Responder I V)) :=
  quantify_return_value_once q

/-! ## Alternating builder step sequences (for the response-index invariant) -/

/-- One `push_responder` immediately followed by its `quantify (count,
exactness)`, the discipline build.rs documents ("must be called after
`push_responder`"). -/
def build_step (b : DynCallPatternBuilder I R) (step : R × Nat × Exactness) :
    DynCallPatternBuilder I R :=
  quantify (push_responder b step.1) step.2.1 step.2.2

/-- A whole alternating sequence of builder steps. -/
def run_build_steps (b : DynCallPatternBuilder I R) (steps : List (R × Nat × Exactness)) :
    DynCallPatternBuilder I R :=
  steps.foldl build_step b

/-- Sum of the quantified counts of a step sequence. -/
def countsSum (steps : List (R × Nat × Exactness)) : Nat :=
  (steps.map (fun step => step.2.1)).sum

/-- Sum of the counts quantified strictly before step `j`: the response index
step `j`'s responder is recorded at. -/
def cumIndex (steps : List (R × Nat × Exactness)) (j : Nat) : Nat :=
  countsSum (steps.take j)

end Unimock

namespace Unimock

/-! ## Lemmas about the linear-scan responder selection -/

lemma select_responder_loop_of_head_past (call_index : Nat)
    (rs : List (DynCallOrderResponder R)) (acc : Option R)
    (h : ∀ h0 : 0 < rs.length, call_index < rs[0].response_index) :
    select_responder_loop call_index rs acc = acc := by
  cases rs with
  | nil => rfl
  | cons e rest =>
    have he := h (by simp)
    simp only [List.getElem_cons_zero] at he
    simp [select_responder_loop, he]

lemma select_responder_loop_greatest (call_index : Nat) :
    ∀ (rs : List (DynCallOrderResponder R)) (j : Nat) (hj : j < rs.length) (acc : Option R),
      (∀ (k : Nat) (hk : k < rs.length), k ≤ j → rs[k].response_index ≤ call_index) →
      (∀ hk : j + 1 < rs.length, call_index < rs[j + 1].response_index) →
      select_responder_loop call_index rs acc = some rs[j].responder := by
  intro rs
  induction rs with
  | nil => intro j hj; simp at hj
  | cons e rest ih =>
    intro j hj acc hall hstop
    have he : e.response_index ≤ call_index := by
      have := hall 0 (by simp) (Nat.zero_le j)
      simpa using this
    rw [select_responder_loop, if_neg (by omega)]
    cases j with
    | zero =>
      have hside : ∀ h0 : 0 < rest.length, call_index < rest[0].response_index := by
        intro h0
        have h1 : 0 + 1 < (e :: rest).length := by simp [h0]
        have := hstop h1
        simpa using this
      rw [select_responder_loop_of_head_past call_index rest (some e.responder) hside]
      simp
    | succ j2 =>
      have hj2 : j2 < rest.length := by simpa using hj
      have hall2 : ∀ (k : Nat) (hk : k < rest.length), k ≤ j2 →
          rest[k].response_index ≤ call_index := by
        intro k hk hkj
        have hk1 : k + 1 < (e :: rest).length := by simpa using hk
        have := hall (k + 1) hk1 (by omega)
        simpa using this
      have hstop2 : ∀ hk : j2 + 1 < rest.length, call_index < rest[j2 + 1].response_index := by
        intro hk
        have hk1 : j2 + 1 + 1 < (e :: rest).length := by simpa using hk
        have := hstop hk1
        simpa using this
      rw [ih j2 hj2 (some e.responder) hall2 hstop2]
      simp

/-! ## Lemmas about the binary-search responder lookup -/

lemma binary_search_by_spec (idxs : List Nat) (target : Nat)
    (hmono : ∀ k l, k ≤ l → l < idxs.length → idxs.getD k 0 ≤ idxs.getD l 0) :
    ∀ (n left right : Nat), right - left ≤ n → left ≤ right → right ≤ idxs.length →
      (∀ k, k < left → idxs.getD k 0 < target) →
      (∀ k, right ≤ k → k < idxs.length → target < idxs.getD k 0) →
      (match binary_search_by idxs target left right with
       | Except.ok i => i < idxs.length ∧ idxs.getD i 0 = target
       | Except.error j => left ≤ j ∧ j ≤ right ∧
           (∀ k, k < j → idxs.getD k 0 < target) ∧
           (∀ k, j ≤ k → k < idxs.length → target < idxs.getD k 0)) := by
  intro n
  induction n with
  | zero =>
    intro left right hn hlr hrlen hl hr
    have hle : ¬ left < right := by omega
    rw [binary_search_by, dif_neg hle]
    exact ⟨Nat.le_refl left, hlr, hl, fun k hk hklen => hr k (by omega) hklen⟩
  | succ n ih =>
    intro left right hn hlr hrlen hl hr
    by_cases hlt : left < right
    · rw [binary_search_by, dif_pos hlt]
      have hdiv : (right - left) / 2 < right - left := Nat.div_lt_self (by omega) (by omega)
      have hmidlt : left + (right - left) / 2 < right := by omega
      have hmidlen : left + (right - left) / 2 < idxs.length := by omega
      rcases hcmp : compare (idxs.getD (left + (right - left) / 2) 0) target with _ | _ | _
      · -- Ordering.lt: the probed index is below the target; search the upper half
        have hprobe : idxs.getD (left + (right - left) / 2) 0 < target :=
          Nat.compare_eq_lt.mp hcmp
        simp only [hcmp]
        have hrec := ih (left + (right - left) / 2 + 1) right (by omega) (by omega) hrlen
          (fun k hk => lt_of_le_of_lt (hmono k (left + (right - left) / 2) (by omega) hmidlen)
            hprobe)
          hr
        revert hrec
        cases binary_search_by idxs target (left + (right - left) / 2 + 1) right with
        | ok i => exact fun h => h
        | error j => exact fun h => ⟨by omega, h.2.1, h.2.2.1, h.2.2.2⟩
      · -- Ordering.eq: exact hit
        simp only [hcmp]
        exact ⟨hmidlen, Nat.compare_eq_eq.mp hcmp⟩
      · -- Ordering.gt: the probed index is above the target; search the lower half
        have hprobe : target < idxs.getD (left + (right - left) / 2) 0 :=
          Nat.compare_eq_gt.mp hcmp
        simp only [hcmp]
        have hrec := ih left (left + (right - left) / 2) (by omega) (by omega) (by omega)
          hl
          (fun k hk hklen =>
            lt_of_lt_of_le hprobe (hmono (left + (right - left) / 2) k hk hklen))
        revert hrec
        cases binary_search_by idxs target left (left + (right - left) / 2) with
        | ok i => exact fun h => h
        | error j => exact fun h => ⟨h.1, by omega, h.2.2.1, h.2.2.2⟩
    · rw [binary_search_by, dif_neg hlt]
      exact ⟨Nat.le_refl left, hlr, hl, fun k hk hklen => hr k (by omega) hklen⟩

end Unimock

namespace Unimock

lemma map_response_index_getD (rs : List (DynCallOrderResponder R)) (k : Nat)
    (hk : k < rs.length) :
    (rs.map (fun e => e.response_index)).getD k 0 = rs[k].response_index := by
  rw [List.getD_eq_getD_get?, List.get?_eq_getElem?, List.getElem?_map,
    List.getElem?_eq_getElem hk]
  rfl

lemma pairwise_lt_getD_mono (rs : List (DynCallOrderResponder R))
    (hsorted : List.Pairwise (fun a b => a.response_index < b.response_index) rs) :
    ∀ k l, k ≤ l → l < (rs.map (fun e => e.response_index)).length →
      (rs.map (fun e => e.response_index)).getD k 0 ≤
        (rs.map (fun e => e.response_index)).getD l 0 := by
  intro k l hkl hl
  have hl2 : l < rs.length := by simpa using hl
  have hk2 : k < rs.length := by omega
  rw [map_response_index_getD rs k hk2, map_response_index_getD rs l hl2]
  rcases Nat.eq_or_lt_of_le hkl with heq | hlt
  · subst heq; exact Nat.le_refl _
  · have := (List.pairwise_iff_get.mp hsorted) ⟨k, hk2⟩ ⟨l, hl2⟩ hlt
    simpa using this.le

end Unimock

namespace Unimock

/-- C1: for a call pattern with strictly increasing response indices, the
responder selection performed on the local call index obtained from the
pattern's counter (`select_responder_for_call`) returns the responder with
the greatest response index ≤ that call index; and when the call index lies
below the first response index, selection yields no responder and
`eval_responder` fails with `NoOutputAvailableForCallPattern` for the matched
pattern. -/
theorem claim_C1 {I R : Type} (pat : CallPattern I R) (counter : Nat)
    (hsorted : List.Pairwise (fun a b => a.response_index < b.response_index)
      pat.responders) :
    (∀ (j : Nat) (hj : j < pat.responders.length),
      pat.responders[j].response_index ≤ counter →
      (∀ (k : Nat) (hk : k < pat.responders.length),
        pat.responders[k].response_index ≤ counter → k ≤ j) →
      (select_responder_for_call pat counter).1 = some pat.responders[j].responder) ∧
    (∀ h0 : 0 < pat.responders.length,
      counter < pat.responders[0].response_index →
      (select_responder_for_call pat counter).1 = none ∧
      ∀ (typed_impl : TypedMockImpl I R) (mode : PatternMatchMode) (inputs : I)
        (name : String) (debug_inputs : I → String) (fallback_mode : FallbackMode)
        (st : EvalState) (pat_index : Nat),
        (match_pattern mode typed_impl inputs name debug_inputs st.call_index).1 =
          Except.ok (some (pat_index, pat)) →
        st.pattern_counters.getD pat_index 0 = counter →
        (eval_responder (some (typed_impl, mode)) inputs name debug_inputs fallback_mode
            st).1 =
          Except.error
            (MockError.NoOutputAvailableForCallPattern name (debug_inputs inputs)
              pat_index)) := by
  constructor
  · intro j hj hle hgreatest
    show (select_responder_loop counter pat.responders none, counter + 1).1 = _
    simp only []
    apply select_responder_loop_greatest counter pat.responders j hj none
    · intro k hk hkj
      rcases Nat.eq_or_lt_of_le hkj with heq | hlt
      · subst heq; exact hle
      · have := (List.pairwise_iff_get.mp hsorted) ⟨k, hk⟩ ⟨j, hj⟩ hlt
        simp only [List.get_eq_getElem] at this
        omega
    · intro hk
      by_contra hcon
      push_neg at hcon
      have := hgreatest (j + 1) hk hcon
      omega
  · intro h0 hlt
    have hnone : (select_responder_for_call pat counter).1 = none := by
      show (select_responder_loop counter pat.responders none, counter + 1).1 = _
      simp only []
      exact select_responder_loop_of_head_past counter pat.responders none fun _ => hlt
    refine ⟨hnone, ?_⟩
    intro typed_impl mode inputs name debug_inputs fallback_mode st pat_index hmp hcounter
    cases hsplit : match_pattern mode typed_impl inputs name debug_inputs st.call_index with
    | mk res call_index2 =>
      rw [hsplit] at hmp
      simp only [] at hmp
      subst hmp
      simp only [eval_responder, eval_type_erased_mock_impl, hsplit, hcounter]
      have : (select_responder_for_call pat counter).1 = none := hnone
      cases hsel : select_responder_for_call pat counter with
      | mk selected counter2 =>
        rw [hsel] at this
        simp only [] at this
        subst this
        rfl

end Unimock

namespace Unimock

/-- A concrete pattern with responders at response indices 0 and 2. -/
def witnessPatternA : CallPattern Unit String :=
  { input_matcher := fun _ => true
    responders := [⟨0, "a"⟩, ⟨2, "b"⟩]
    ordered_call_index_range := (0, 1) }

/-- A concrete pattern whose first responder sits at response index 1, so
local call index 0 has no responder at or before it. -/
def witnessPatternB : CallPattern Unit String :=
  { input_matcher := fun _ => true
    responders := [⟨1, "x"⟩]
    ordered_call_index_range := (0, 1) }

/-- Witness for C1 at concrete inputs: call index 1 on responder indices
{0, 2} selects the index-0 responder, and call index 0 on responder indices
{1} selects nothing and evaluates to `NoOutputAvailableForCallPattern`. -/
theorem claim_C1_witness :
    (select_responder_for_call witnessPatternA 1).1 = some "a" ∧
    (select_responder_for_call witnessPatternB 0).1 = none ∧
    (eval_responder (some (⟨[witnessPatternB]⟩, PatternMatchMode.InAnyOrder)) () "series"
        (fun _ => "()") FallbackMode.Error ⟨0, [0]⟩).1 =
      Except.error (MockError.NoOutputAvailableForCallPattern "series" "()" 0) := by
  have h := claim_C1 witnessPatternA 1 (by decide)
  have h2 := claim_C1 witnessPatternB 0 (by decide)
  refine ⟨?_, ?_, ?_⟩
  · have := h.1 0 (by decide) (by decide) ?_
    · simpa [witnessPatternA] using this
    · decide
  · exact (h2.2 (by decide) (by decide)).1
  · exact (h2.2 (by decide) (by decide)).2 ⟨[witnessPatternB]⟩ PatternMatchMode.InAnyOrder ()
      "series" (fun _ => "()") FallbackMode.Error ⟨0, [0]⟩ 0 (by rfl) (by rfl)

end Unimock

namespace Unimock

/-- C2 counterexample: two responder lists sorted by non-decreasing response
index on which the binary-search implementation and the linear-scan
implementation do not select the same responder.  (1) A single responder at
response index 1 with call index 0: the linear scan yields no responder,
while the binary search computes `insert_index - 1` with `insert_index = 0`
and panics (usize subtraction overflow).  (2) Three responders sharing
response index 0 with call index 0: the linear scan selects the last one,
the binary search selects the middle one. -/
theorem claim_C2_counterexample :
    (select_responder_loop 0 [(⟨1, "x"⟩ : DynCallOrderResponder String)] none = none ∧
      find_responder_by_call_index [(⟨1, "x"⟩ : DynCallOrderResponder String)] 0 =
        Except.error "attempt to subtract with overflow") ∧
    (select_responder_loop 0
        [(⟨0, "p"⟩ : DynCallOrderResponder String), ⟨0, "q"⟩, ⟨0, "r"⟩] none = some "r" ∧
      find_responder_by_call_index
        [(⟨0, "p"⟩ : DynCallOrderResponder String), ⟨0, "q"⟩, ⟨0, "r"⟩] 0 =
        Except.ok (some "q")) := by
  refine ⟨⟨rfl, ?_⟩, rfl, ?_⟩
  · simp [find_responder_by_call_index, binary_search_by]
    rfl
  · simp [find_responder_by_call_index, binary_search_by]
    rfl

/-- C2 (amended): for every responder list with strictly increasing response
indices and every call index that is not below the first response index (or
an empty list), the binary-search implementation
(`find_responder_by_call_index`, call_pattern.rs) returns without panicking
exactly the responder the linear-scan implementation
(`select_responder_for_call`'s loop, eval.rs) selects — in particular both
yield no responder on an empty list. -/
theorem claim_C2 {R : Type} (rs : List (DynCallOrderResponder R)) (call_index : Nat)
    (hsorted : List.Pairwise (fun a b => a.response_index < b.response_index) rs)
    (hfirst : ∀ h0 : 0 < rs.length, rs[0].response_index ≤ call_index) :
    find_responder_by_call_index rs call_index =
      Except.ok (select_responder_loop call_index rs none) := by
  by_cases hemp : rs.isEmpty
  · rw [List.isEmpty_iff] at hemp
    subst hemp
    rfl
  · have hlen : 0 < rs.length := by
      cases rs with
      | nil => simp at hemp
      | cons e rest => simp
    rw [find_responder_by_call_index, if_neg hemp]
    have hmono := pairwise_lt_getD_mono rs hsorted
    have hspec := binary_search_by_spec (rs.map (fun e => e.response_index)) call_index
      hmono rs.length 0 rs.length (by simp) (by omega) (by simp)
      (fun k hk => absurd hk (by omega))
      (fun k hk1 hk2 => absurd hk1 (by simp at hk2; omega))
    revert hspec
    cases hbs : binary_search_by (rs.map (fun e => e.response_index)) call_index 0
        rs.length with
    | ok i =>
      intro hspec
      obtain ⟨hi, heq⟩ := hspec
      have hi2 : i < rs.length := by simpa using hi
      rw [map_response_index_getD rs i hi2] at heq
      simp only [List.get?_eq_getElem?, List.getElem?_eq_getElem hi2]
      have hloop : select_responder_loop call_index rs none = some rs[i].responder := by
        apply select_responder_loop_greatest call_index rs i hi2 none
        · intro k hk hkj
          rcases Nat.eq_or_lt_of_le hkj with hkeq | hklt
          · subst hkeq; omega
          · have := (List.pairwise_iff_get.mp hsorted) ⟨k, hk⟩ ⟨i, hi2⟩ hklt
            simp only [List.get_eq_getElem] at this
            omega
        · intro hk
          have := (List.pairwise_iff_get.mp hsorted) ⟨i, hi2⟩ ⟨i + 1, hk⟩ (Nat.lt_succ_self i)
          simp only [List.get_eq_getElem] at this
          omega
      rw [hloop]
    | error j =>
      intro hspec
      obtain ⟨-, hjr, hlo, hhi⟩ := hspec
      cases j with
      | zero =>
        exfalso
        have := hhi 0 (Nat.zero_le 0) (by simpa using hlen)
        rw [map_response_index_getD rs 0 hlen] at this
        have := hfirst hlen
        omega
      | succ j2 =>
        have hj2 : j2 < rs.length := by omega
        simp only [List.get?_eq_getElem?, List.getElem?_eq_getElem hj2]
        have hloop : select_responder_loop call_index rs none = some rs[j2].responder := by
          apply select_responder_loop_greatest call_index rs j2 hj2 none
          · intro k hk hkj
            have := hlo k (by omega)
            rw [map_response_index_getD rs k hk] at this
            omega
          · intro hk
            have := hhi (j2 + 1) (Nat.le_refl _) (by simpa using hk)
            rw [map_response_index_getD rs (j2 + 1) hk] at this
            omega
        rw [hloop]

/-- Witness for C2 (amended) at a concrete input: responder indices {0, 2},
call index 5. -/
theorem claim_C2_witness :
    find_responder_by_call_index [(⟨0, "a"⟩ : DynCallOrderResponder String), ⟨2, "b"⟩] 5 =
      Except.ok (some "b") := by
  have h := claim_C2 [(⟨0, "a"⟩ : DynCallOrderResponder String), ⟨2, "b"⟩] 5
    (by decide) (by decide)
  rw [h]
  rfl

end Unimock

namespace Unimock

/-! ## Lemmas about the registration-order pattern scan -/

lemma find_enumerate_none (pred : α → Bool) :
    ∀ (l : List α) (i : Nat), (∀ x ∈ l, pred x = false) → find_enumerate pred l i = none := by
  intro l
  induction l with
  | nil => intro i h; rfl
  | cons x rest ih =>
    intro i h
    rw [find_enumerate, if_neg]
    · exact ih (i + 1) fun y hy => h y (List.mem_cons_of_mem x hy)
    · simp [h x (List.mem_cons_self x rest)]

lemma find_enumerate_first (pred : α → Bool) :
    ∀ (l : List α) (j : Nat) (hj : j < l.length) (i : Nat), pred l[j] = true →
      (∀ (k : Nat) (hk : k < l.length), k < j → pred l[k] = false) →
      find_enumerate pred l i = some (i + j, l[j]) := by
  intro l
  induction l with
  | nil => intro j hj; simp at hj
  | cons x rest ih =>
    intro j hj i hp hbefore
    cases j with
    | zero =>
      simp only [List.getElem_cons_zero] at hp
      rw [find_enumerate, if_pos hp]
      simp
    | succ j2 =>
      have hx : pred x = false := by
        have := hbefore 0 (by simp) (Nat.succ_pos j2)
        simpa using this
      rw [find_enumerate, if_neg (by simp [hx])]
      have hj2 : j2 < rest.length := by simpa using hj
      rw [ih j2 hj2 (i + 1) (by simpa using hp) ?_]
      · have harith : i + 1 + j2 = i + (j2 + 1) := by omega
        simp [harith]
      · intro k hk hkj
        have hk1 : k + 1 < (x :: rest).length := by simpa using hk
        have := hbefore (k + 1) hk1 (by omega)
        simpa using this

end Unimock

namespace Unimock

/-- C3: in `InAnyOrder` mode the selected pattern is the first one in
registration order whose matcher accepts the input (so with overlapping
patterns A then B, an input accepted by both selects A); if no pattern
accepts, `eval_responder` fails with `NoMatchingCallPatterns` under the
`Error` fallback and is skipped (`Eval.Unmock`) under the `Unmock`
fallback. -/
theorem claim_C3 {I R : Type} (typed_impl : TypedMockImpl I R) (inputs : I)
    (name : String) (debug_inputs : I → String) (st : EvalState) :
    (∀ (j : Nat) (hj : j < typed_impl.patterns.length),
      typed_impl.patterns[j].input_matcher inputs = true →
      (∀ (k : Nat) (hk : k < typed_impl.patterns.length), k < j →
        typed_impl.patterns[k].input_matcher inputs = false) →
      match_pattern PatternMatchMode.InAnyOrder typed_impl inputs name debug_inputs
          st.call_index =
        (Except.ok (some (j, typed_impl.patterns[j])), st.call_index)) ∧
    (∀ (A B : CallPattern I R) (rest : List (CallPattern I R)),
      typed_impl.patterns = A :: B :: rest →
      A.input_matcher inputs = true →
      (match_pattern PatternMatchMode.InAnyOrder typed_impl inputs name debug_inputs
          st.call_index).1 =
        Except.ok (some (0, A))) ∧
    ((∀ p ∈ typed_impl.patterns, p.input_matcher inputs = false) →
      eval_responder (some (typed_impl, PatternMatchMode.InAnyOrder)) inputs name
          debug_inputs FallbackMode.Error st =
        (Except.error (MockError.NoMatchingCallPatterns name (debug_inputs inputs)), st) ∧
      eval_responder (some (typed_impl, PatternMatchMode.InAnyOrder)) inputs name
          debug_inputs FallbackMode.Unmock st =
        (Except.ok Eval.Unmock, st)) := by
  refine ⟨?_, ?_, ?_⟩
  · intro j hj hp hbefore
    rw [match_pattern]
    rw [find_enumerate_first (fun pattern => pattern.input_matcher inputs)
      typed_impl.patterns j hj 0 hp hbefore]
    simp
  · intro A B rest hpat hA
    rw [match_pattern]
    rw [find_enumerate_first (fun pattern => pattern.input_matcher inputs)
      typed_impl.patterns 0 (by simp [hpat]) 0 (by simp [hpat, hA])
      (fun k hk hk0 => absurd hk0 (by omega))]
    simp [hpat]
  · intro hnone
    have hfe : find_enumerate (fun pattern => pattern.input_matcher inputs)
        typed_impl.patterns 0 = none :=
      find_enumerate_none _ typed_impl.patterns 0 hnone
    constructor
    · simp only [eval_responder, eval_type_erased_mock_impl, match_pattern, hfe]
    · simp only [eval_responder, eval_type_erased_mock_impl, match_pattern, hfe]

/-- Two overlapping concrete patterns for the C3 witness: both accept the
input 7; registered in order A then B. -/
def witnessPatternOverlapA : CallPattern Nat String :=
  { input_matcher := fun n => decide (n < 10)
    responders := [⟨0, "A"⟩]
    ordered_call_index_range := (0, 1) }

/-- Second overlapping pattern, also accepting 7. -/
def witnessPatternOverlapB : CallPattern Nat String :=
  { input_matcher := fun n => decide (5 < n)
    responders := [⟨0, "B"⟩]
    ordered_call_index_range := (1, 2) }

/-- Witness for C3 at concrete inputs: input 7 accepted by both overlapping
patterns selects A (pattern 0); input 99 accepted by neither gives
`NoMatchingCallPatterns` under `Error` and a skip under `Unmock`. -/
theorem claim_C3_witness :
    (match_pattern PatternMatchMode.InAnyOrder
        ⟨[witnessPatternOverlapA, witnessPatternOverlapB]⟩ 7 "f" (fun n => toString n)
        0).1 =
      Except.ok (some (0, witnessPatternOverlapA)) ∧
    eval_responder (some (⟨[witnessPatternOverlapA]⟩, PatternMatchMode.InAnyOrder)) 99 "f"
        (fun n => toString n) FallbackMode.Error ⟨0, [0]⟩ =
      (Except.error (MockError.NoMatchingCallPatterns "f" "99"), ⟨0, [0]⟩) ∧
    eval_responder (some (⟨[witnessPatternOverlapA]⟩, PatternMatchMode.InAnyOrder)) 99 "f"
        (fun n => toString n) FallbackMode.Unmock ⟨0, [0]⟩ =
      (Except.ok Eval.Unmock, ⟨0, [0]⟩) := by
  have h := claim_C3 (⟨[witnessPatternOverlapA, witnessPatternOverlapB]⟩ :
    TypedMockImpl Nat String) 7 "f" (fun n => toString n) ⟨0, [0]⟩
  have h2 := claim_C3 (⟨[witnessPatternOverlapA]⟩ : TypedMockImpl Nat String) 99 "f"
    (fun n => toString n) ⟨0, [0]⟩
  refine ⟨?_, ?_, ?_⟩
  · exact h.2.1 witnessPatternOverlapA witnessPatternOverlapB [] rfl (by decide)
  · exact (h2.2.2 (by decide)).1
  · exact (h2.2.2 (by decide)).2

end Unimock

namespace Unimock

/-- C4: in `InOrder` mode, when the global order position obtained from the
atomic counter lies in no pattern's allocated `ordered_call_index_range`,
evaluation fails with `CallOrderNotMatchedForMockFn` carrying the actual
call order and every pattern's expected range; when a covering pattern
exists (the first one, as the scan finds it) but its matcher rejects the
input, evaluation fails with the distinct `InputsNotMatchedInCallOrder`
carrying the actual call order and that pattern's index.  Both failures
still advance the global call index. -/
theorem claim_C4 {I R : Type} (typed_impl : TypedMockImpl I R) (inputs : I)
    (name : String) (debug_inputs : I → String) (fallback_mode : FallbackMode)
    (st : EvalState) :
    ((∀ p ∈ typed_impl.patterns, matches_global_call_index p st.call_index = false) →
      eval_responder (some (typed_impl, PatternMatchMode.InOrder)) inputs name
          debug_inputs fallback_mode st =
        (Except.error (MockError.CallOrderNotMatchedForMockFn name (debug_inputs inputs)
            st.call_index (typed_impl.patterns.map expected_range)),
          { st with call_index := st.call_index + 1 })) ∧
    (∀ (j : Nat) (hj : j < typed_impl.patterns.length),
      matches_global_call_index typed_impl.patterns[j] st.call_index = true →
      (∀ (k : Nat) (hk : k < typed_impl.patterns.length), k < j →
        matches_global_call_index typed_impl.patterns[k] st.call_index = false) →
      typed_impl.patterns[j].input_matcher inputs = false →
      eval_responder (some (typed_impl, PatternMatchMode.InOrder)) inputs name
          debug_inputs fallback_mode st =
        (Except.error (MockError.InputsNotMatchedInCallOrder name (debug_inputs inputs)
            st.call_index j),
          { st with call_index := st.call_index + 1 })) := by
  constructor
  · intro hnone
    have hfe : find_enumerate
        (fun pattern => matches_global_call_index pattern st.call_index)
        typed_impl.patterns 0 = none :=
      find_enumerate_none _ typed_impl.patterns 0 hnone
    simp only [eval_responder, eval_type_erased_mock_impl, match_pattern, hfe]
  · intro j hj hcover hbefore hreject
    have hfe := find_enumerate_first
      (fun pattern => matches_global_call_index pattern st.call_index)
      typed_impl.patterns j hj 0 hcover hbefore
    simp only [Nat.zero_add] at hfe
    simp only [eval_responder, eval_type_erased_mock_impl, match_pattern, hfe, hreject]
    simp [hreject]

/-- Witness for C4 at concrete inputs: two `InOrder` patterns covering global
order positions {0} and {1}.  At position 2 no range covers, giving
`CallOrderNotMatchedForMockFn` with both expected ranges; at position 1 the
covering pattern B rejects input 3, giving `InputsNotMatchedInCallOrder` with
pattern index 1. -/
theorem claim_C4_witness :
    eval_responder
        (some (⟨[witnessPatternOverlapA, witnessPatternOverlapB]⟩,
          PatternMatchMode.InOrder))
        7 "f" (fun n => toString n) FallbackMode.Error ⟨2, [0, 0]⟩ =
      (Except.error (MockError.CallOrderNotMatchedForMockFn "f" "7" 2 [(0, 1), (1, 2)]),
        ⟨3, [0, 0]⟩) ∧
    eval_responder
        (some (⟨[witnessPatternOverlapA, witnessPatternOverlapB]⟩,
          PatternMatchMode.InOrder))
        3 "f" (fun n => toString n) FallbackMode.Error ⟨1, [0, 0]⟩ =
      (Except.error (MockError.InputsNotMatchedInCallOrder "f" "3" 1 1),
        ⟨2, [0, 0]⟩) := by
  have h := claim_C4 (⟨[witnessPatternOverlapA, witnessPatternOverlapB]⟩ :
    TypedMockImpl Nat String) 7 "f" (fun n => toString n) FallbackMode.Error ⟨2, [0, 0]⟩
  have h2 := claim_C4 (⟨[witnessPatternOverlapA, witnessPatternOverlapB]⟩ :
    TypedMockImpl Nat String) 3 "f" (fun n => toString n) FallbackMode.Error ⟨1, [0, 0]⟩
  constructor
  · exact h.1 (by decide)
  · exact h2.2 1 (by decide) (by decide) (by decide) (by decide)

end Unimock

namespace Unimock

/-- C5: with no mock implementation registered for the function identity,
evaluation fails with `NoMockImplementation` carrying the function name under
the `Error` fallback mode, and is skipped (delegated, `Eval::Unmock`) under
the `Unmock` fallback mode — both at the `eval_type_erased_mock_impl` lookup
and through `eval_responder`, which also leaves all state untouched. -/
theorem claim_C5 {I R : Type} (inputs : I) (name : String) (debug_inputs : I → String)
    (st : EvalState) :
    eval_type_erased_mock_impl (none : Option (TypedMockImpl I R × PatternMatchMode))
        name FallbackMode.Error =
      Except.error (MockError.NoMockImplementation name) ∧
    eval_type_erased_mock_impl (none : Option (TypedMockImpl I R × PatternMatchMode))
        name FallbackMode.Unmock =
      Except.ok Eval.Unmock ∧
    eval_responder (none : Option (TypedMockImpl I R × PatternMatchMode)) inputs name
        debug_inputs FallbackMode.Error st =
      (Except.error (MockError.NoMockImplementation name), st) ∧
    eval_responder (none : Option (TypedMockImpl I R × PatternMatchMode)) inputs name
        debug_inputs FallbackMode.Unmock st =
      (Except.ok Eval.Unmock, st) :=
  ⟨rfl, rfl, rfl, rfl⟩

/-- C9: every `InOrder` evaluation advances the instance's global ordered
call index by exactly one — the fetch-and-add happens before any matching, so
evaluations that go on to fail with `CallOrderNotMatchedForMockFn` or
`InputsNotMatchedInCallOrder` still consume their order position — while an
`InAnyOrder` evaluation never changes the global ordered call index.  Stated
both for `match_pattern` (which owns the counter update) and for whole
`eval_responder` runs. -/
theorem claim_C9 {I R : Type} (typed_impl : TypedMockImpl I R) (inputs : I)
    (name : String) (debug_inputs : I → String) (fallback_mode : FallbackMode)
    (st : EvalState) :
    (match_pattern PatternMatchMode.InOrder typed_impl inputs name debug_inputs
        st.call_index).2 = st.call_index + 1 ∧
    (match_pattern PatternMatchMode.InAnyOrder typed_impl inputs name debug_inputs
        st.call_index).2 = st.call_index ∧
    (eval_responder (some (typed_impl, PatternMatchMode.InOrder)) inputs name
        debug_inputs fallback_mode st).2.call_index = st.call_index + 1 ∧
    (eval_responder (some (typed_impl, PatternMatchMode.InAnyOrder)) inputs name
        debug_inputs fallback_mode st).2.call_index = st.call_index := by
  have hmp : ∀ mode, (match_pattern mode typed_impl inputs name debug_inputs
      st.call_index).2 =
      match mode with
      | PatternMatchMode.InOrder => st.call_index + 1
      | PatternMatchMode.InAnyOrder => st.call_index := by
    intro mode
    cases mode with
    | InOrder =>
      rw [match_pattern]
      cases find_enumerate (fun pattern => matches_global_call_index pattern st.call_index)
          typed_impl.patterns 0 with
      | none => rfl
      | some pair =>
        obtain ⟨pat_index, pattern⟩ := pair
        by_cases hm : pattern.input_matcher inputs
        · simp [hm]
        · simp [hm]
    | InAnyOrder => rfl
  have heval : ∀ mode, (eval_responder (some (typed_impl, mode)) inputs name debug_inputs
      fallback_mode st).2.call_index =
      (match_pattern mode typed_impl inputs name debug_inputs st.call_index).2 := by
    intro mode
    simp only [eval_responder, eval_type_erased_mock_impl]
    split <;> rename_i heq <;> rw [heq] <;> try rfl
    all_goals split <;> rfl
  exact ⟨hmp PatternMatchMode.InOrder, hmp PatternMatchMode.InAnyOrder,
    (heval PatternMatchMode.InOrder).trans (hmp PatternMatchMode.InOrder),
    (heval PatternMatchMode.InAnyOrder).trans (hmp PatternMatchMode.InAnyOrder)⟩

/-- The four `MockError` kinds raised before any pattern has been selected
for the call (claim C10). -/
def pre_selection_error (e : MockError) : Bool :=
  match e with
  | MockError.NoMockImplementation _ => true
  | MockError.NoMatchingCallPatterns _ _ => true
  | MockError.CallOrderNotMatchedForMockFn _ _ _ _ => true
  | MockError.InputsNotMatchedInCallOrder _ _ _ _ => true
  | _ => false

/-- C10: a pattern's per-pattern call counter is advanced only once that
pattern has been selected for the call: whenever `eval_responder` fails with
`NoMockImplementation`, `NoMatchingCallPatterns`, `CallOrderNotMatchedForMockFn`
or `InputsNotMatchedInCallOrder`, every pattern's call counter is left
exactly as it was. -/
theorem claim_C10 {I R : Type} (dyn_impl : Option (TypedMockImpl I R × PatternMatchMode))
    (inputs : I) (name : String) (debug_inputs : I → String)
    (fallback_mode : FallbackMode) (st : EvalState) (e : MockError) (st2 : EvalState) :
    eval_responder dyn_impl inputs name debug_inputs fallback_mode st =
      (Except.error e, st2) →
    pre_selection_error e = true →
    st2.pattern_counters = st.pattern_counters := by
  intro heval hpre
  cases dyn_impl with
  | none =>
    cases fallback_mode with
    | Error =>
      simp only [eval_responder, eval_type_erased_mock_impl, Prod.mk.injEq] at heval
      rw [← heval.2]
    | Unmock =>
      simp only [eval_responder, eval_type_erased_mock_impl, Prod.mk.injEq] at heval
      exact absurd heval.1 (by simp)
  | some impl_mode =>
    obtain ⟨typed_impl, mode⟩ := impl_mode
    simp only [eval_responder, eval_type_erased_mock_impl] at heval
    split at heval
    · simp only [Prod.mk.injEq] at heval
      rw [← heval.2]
    · cases fallback_mode with
      | Error =>
        simp only [Prod.mk.injEq] at heval
        rw [← heval.2]
      | Unmock =>
        simp only [Prod.mk.injEq] at heval
        exact absurd heval.1 (by simp)
    · split at heval
      · simp only [Prod.mk.injEq] at heval
        exact absurd heval.1 (by simp)
      · simp only [Prod.mk.injEq] at heval
        have hfalse : pre_selection_error e = false := by
          have h1 := heval.1
          injection h1 with h1
          rw [← h1]
          rfl
        rw [hfalse] at hpre
        exact absurd hpre (by simp)

end Unimock

namespace Unimock

/-- Witness for C10 at a concrete input: an `InOrder` evaluation at global
order position 5, covered by no pattern range, fails with
`CallOrderNotMatchedForMockFn` and leaves the pattern counter list [7]
untouched. -/
theorem claim_C10_witness :
    (⟨6, [7]⟩ : EvalState).pattern_counters = (⟨5, [7]⟩ : EvalState).pattern_counters :=
  claim_C10 (some (⟨[witnessPatternOverlapA]⟩, PatternMatchMode.InOrder)) 99 "f"
    (fun n => toString n) FallbackMode.Error ⟨5, [7]⟩
    (MockError.CallOrderNotMatchedForMockFn "f" "99" 5 [(0, 1)]) ⟨6, [7]⟩
    (by rfl) (by rfl)

end Unimock

namespace Unimock

/-! ## Lemmas about alternating builder step sequences -/

/-- The responder entries an alternating step sequence appends when started
at response index `base`. -/
def respondersOf (base : Nat) :
    List (R × Nat × Exactness) → List (DynCallOrderResponder R)
  | [] => []
  | step :: rest => ⟨base, step.1⟩ :: respondersOf (base + step.2.1) rest

lemma respondersOf_length : ∀ (steps : List (R × Nat × Exactness)) (base : Nat),
    (respondersOf base steps).length = steps.length := by
  intro steps
  induction steps with
  | nil => intro base; rfl
  | cons step rest ih => intro base; simp [respondersOf, ih]

lemma run_build_steps_spec : ∀ (steps : List (R × Nat × Exactness))
    (b : DynCallPatternBuilder I R),
    (run_build_steps b steps).current_response_index =
      b.current_response_index + countsSum steps ∧
    (run_build_steps b steps).responders =
      b.responders ++ respondersOf b.current_response_index steps := by
  intro steps
  induction steps with
  | nil =>
    intro b
    simp [run_build_steps, countsSum, respondersOf]
  | cons step rest ih =>
    intro b
    have hfold : run_build_steps b (step :: rest) = run_build_steps (build_step b step) rest :=
      rfl
    obtain ⟨ih1, ih2⟩ := ih (build_step b step)
    constructor
    · rw [hfold, ih1]
      simp [build_step, quantify, push_responder, countsSum]
      omega
    · rw [hfold, ih2]
      simp [build_step, quantify, push_responder, respondersOf]

lemma respondersOf_getElem? : ∀ (steps : List (R × Nat × Exactness)) (base : Nat) (j : Nat),
    (respondersOf base steps)[j]? =
      (steps[j]?).map (fun step =>
        (⟨base + cumIndex steps j, step.1⟩ : DynCallOrderResponder R)) := by
  intro steps
  induction steps with
  | nil => intro base j; simp [respondersOf]
  | cons step rest ih =>
    intro base j
    cases j with
    | zero => simp [respondersOf, cumIndex, countsSum]
    | succ j2 =>
      rw [respondersOf]
      rw [List.getElem?_cons_succ, List.getElem?_cons_succ, ih (base + step.2.1) j2]
      cases hrj : rest[j2]? with
      | none => rfl
      | some step2 =>
        have harith : base + step.2.1 + cumIndex rest j2 =
            base + cumIndex (step :: rest) (j2 + 1) := by
          simp [cumIndex, countsSum, List.take_cons]
          omega
        simp [harith]

lemma respondersOf_index_ge : ∀ (steps : List (R × Nat × Exactness)) (base : Nat),
    ∀ e ∈ respondersOf base steps, base ≤ e.response_index := by
  intro steps
  induction steps with
  | nil => intro base e he; simp [respondersOf] at he
  | cons step rest ih =>
    intro base e he
    rw [respondersOf] at he
    rcases List.mem_cons.mp he with heq | hmem
    · subst heq; exact Nat.le_refl base
    · have := ih (base + step.2.1) e hmem
      omega

lemma respondersOf_pairwise : ∀ (steps : List (R × Nat × Exactness)) (base : Nat),
    List.Pairwise (fun a b => a.response_index ≤ b.response_index)
      (respondersOf base steps) := by
  intro steps
  induction steps with
  | nil => intro base; exact List.Pairwise.nil
  | cons step rest ih =>
    intro base
    rw [respondersOf]
    refine List.Pairwise.cons ?_ (ih (base + step.2.1))
    intro e he
    have := respondersOf_index_ge rest (base + step.2.1) e he
    simpa using by omega

lemma cumIndex_succ_ge (steps : List (R × Nat × Exactness)) (k : Nat) :
    cumIndex steps k ≤ cumIndex steps (k + 1) := by
  rw [cumIndex, cumIndex, List.take_succ]
  simp [countsSum]

lemma cumIndex_mono (steps : List (R × Nat × Exactness)) :
    ∀ (k j : Nat), k ≤ j → cumIndex steps k ≤ cumIndex steps j := by
  intro k j hkj
  induction j with
  | zero =>
    have : k = 0 := by omega
    subst this; exact Nat.le_refl _
  | succ j2 ih =>
    rcases Nat.eq_or_lt_of_le hkj with heq | hlt
    · subst heq; exact Nat.le_refl _
    · exact Nat.le_trans (ih (by omega)) (cumIndex_succ_ge steps j2)

end Unimock

namespace Unimock

lemma respondersOf_zero_getElem (steps : List (R × Nat × Exactness)) (k : Nat)
    (hk : k < steps.length) (hk2 : k < (respondersOf 0 steps).length) :
    (respondersOf 0 steps)[k] =
      (⟨cumIndex steps k, steps[k].1⟩ : DynCallOrderResponder R) := by
  have h1 := respondersOf_getElem? steps 0 k
  rw [List.getElem?_eq_getElem hk2, List.getElem?_eq_getElem hk] at h1
  simpa using h1

/-- C6: in an alternating `push_responder` / `quantify` sequence, each
`quantify` advances the current response index by exactly its count, so each
pushed responder is recorded at the sum of all counts quantified before its
push (`cumIndex`); the resulting responder list has non-decreasing response
indices, and a call index `c` with `cumIndex j ≤ c` (and `c < cumIndex (j+1)`
unless stage `j` is the last) selects stage `j`'s responder — so the first
`n0` calls select responder 0, the next `n1` responder 1, and every call past
the last declared response index still selects the last responder. -/
theorem claim_C6 {I R : Type} (matcher : I → Bool) (mode : PatternMatchMode)
    (steps : List (R × Nat × Exactness)) :
    (∀ (b : DynCallPatternBuilder I R) (times : Nat) (exactness : Exactness),
      (quantify b times exactness).current_response_index =
        b.current_response_index + times) ∧
    (∀ j : Nat,
      (run_build_steps (DynCallPatternBuilder.new mode matcher
        : DynCallPatternBuilder I R) steps).responders[j]? =
        (steps[j]?).map (fun step => ⟨cumIndex steps j, step.1⟩)) ∧
    List.Pairwise (fun a b => a.response_index ≤ b.response_index)
      (run_build_steps (DynCallPatternBuilder.new mode matcher
        : DynCallPatternBuilder I R) steps).responders ∧
    (∀ (j c : Nat) (hj : j < steps.length),
      cumIndex steps j ≤ c →
      (∀ _h2 : j + 1 < steps.length, c < cumIndex steps (j + 1)) →
      select_responder_loop c
        (run_build_steps (DynCallPatternBuilder.new mode matcher
          : DynCallPatternBuilder I R) steps).responders none =
        some steps[j].1) := by
  have hrun := run_build_steps_spec steps
    (DynCallPatternBuilder.new mode matcher : DynCallPatternBuilder I R)
  have hresp : (run_build_steps (DynCallPatternBuilder.new mode matcher
      : DynCallPatternBuilder I R) steps).responders = respondersOf 0 steps := by
    rw [hrun.2]
    simp [DynCallPatternBuilder.new]
  refine ⟨fun b times exactness => rfl, ?_, ?_, ?_⟩
  · intro j
    rw [hresp, respondersOf_getElem? steps 0 j]
    simp
  · rw [hresp]
    exact respondersOf_pairwise steps 0
  · intro j c hj hcle hclt
    rw [hresp]
    have hlen := respondersOf_length steps 0
    have hjr : j < (respondersOf 0 steps).length := by omega
    have hgetj := respondersOf_zero_getElem steps j hj hjr
    have hsel : select_responder_loop c (respondersOf 0 steps) none =
        some (respondersOf 0 steps)[j].responder := by
      apply select_responder_loop_greatest c (respondersOf 0 steps) j hjr none
      · intro k hk hkj
        have hk2 : k < steps.length := by omega
        rw [respondersOf_zero_getElem steps k hk2 hk]
        exact Nat.le_trans (cumIndex_mono steps k j hkj) hcle
      · intro hk
        have hk2 : j + 1 < steps.length := by omega
        rw [respondersOf_zero_getElem steps (j + 1) hk2 hk]
        exact hclt hk2
    rw [hsel, hgetj]

/-- Witness for C6 at a concrete step sequence (counts 1, 2, 1): responder 1
is recorded at response index 1 and is selected for call index 2. -/
theorem claim_C6_witness :
    (run_build_steps (DynCallPatternBuilder.new PatternMatchMode.InAnyOrder
        (fun _ => true) : DynCallPatternBuilder Unit String)
      [("r0", 1, Exactness.Exact), ("r1", 2, Exactness.Exact),
       ("r2", 1, Exactness.AtLeast)]).responders[1]? =
      some ⟨1, "r1"⟩ ∧
    select_responder_loop 2
      (run_build_steps (DynCallPatternBuilder.new PatternMatchMode.InAnyOrder
          (fun _ => true) : DynCallPatternBuilder Unit String)
        [("r0", 1, Exactness.Exact), ("r1", 2, Exactness.Exact),
         ("r2", 1, Exactness.AtLeast)]).responders none =
      some "r1" := by
  have h := claim_C6 (fun (_ : Unit) => true) PatternMatchMode.InAnyOrder
    [("r0", 1, Exactness.Exact), ("r1", 2, Exactness.Exact),
     ("r2", 1, Exactness.AtLeast)]
  constructor
  · rw [h.2.1 1]
    rfl
  · have := h.2.2.2 1 2 (by decide) (by decide) (by decide)
    simpa using this

end Unimock

namespace Unimock

/-! ## Driving a pattern through successive calls (for the sequenced-response
property) -/

/-- The output-producing arm of `eval_sized` (eval.rs lines 27–47), projected
onto the produced value and the updated stored cell: a `Value` responder
clones out of its stored cell (`*stored.box_clone()`, consuming a once-cell),
a `Closure` responder invokes its closure; the remaining variants produce an
error or a skip under `eval_sized` and hence no output value. -/
def eval_sized_produce (responder : Responder I V) (inputs : I) :
    Option V × Responder I V :=
  match responder with
  | Responder.Value stored =>
    ((box_clone stored).1, Responder.Value (box_clone stored).2)
  | Responder.Closure f => (some (f inputs), Responder.Closure f)
  | Responder.StaticRefClosure f => (none, Responder.StaticRefClosure f)
  | Responder.Borrowable v => (none, Responder.Borrowable v)
  | Responder.Panic msg => (none, Responder.Panic msg)
  | Responder.Unmock => (none, Responder.Unmock)

/-- One call against a responder list: walk the entries exactly like
`select_responder_for_call`'s loop — stop at the first entry past the call
index, select the last entry at or before it — then produce from the selected
responder, writing its updated cell back in place.  `none` means no responder
was selected (the `NoOutputAvailableForCallPattern` case). -/
def call_once_walk (call_index : Nat) (inputs : I) :
    List (DynCallOrderResponder (Responder I V)) →
    Option (Option V × List (DynCallOrderResponder (Responder I V)))
  | [] => none
  | entry :: rest =>
    if call_index < entry.response_index then none
    else
      match call_once_walk call_index inputs rest with
      | some (out, rest2) => some (out, entry :: rest2)
      | none =>
        some ((eval_sized_produce entry.responder inputs).1,
          { entry with responder := (eval_sized_produce entry.responder inputs).2 } :: rest)

/-- Drive `count` successive calls against a pattern's responder list,
starting from the given per-pattern call counter, collecting each call's
produced output.  The counter advances on every call (the fetch-and-add in
`select_responder_for_call` happens before the scan). -/
def run_series (inputs : I) :
    Nat → List (DynCallOrderResponder (Responder I V)) → Nat → List (Option V)
  | 0, _, _ => []
  | count + 1, responders, counter =>
    match call_once_walk counter inputs responders with
    | none => none :: run_series inputs count responders (counter + 1)
    | some (out, responders2) => out :: run_series inputs count responders2 (counter + 1)

/-- The builder chain of the `responders_in_series` test
(tests/it/basic.rs):
`returns(1).once().then().returns(2).n_times(2).then().returns(3).at_least_times(1)`,
assembled from the build.rs operations (`DefineMultipleResponses::returns`
pushes the cloneable value, `Quantify::once`/`n_times`/`at_least_times`
quantify it, `QuantifiedResponse::then` opens the next stage). -/
def series_clause_builder : DynCallPatternBuilder Unit (Responder Unit Nat) :=
  quantify_at_least_times
    (define_multiple_responses_returns
      (quantified_response_then
        (quantify_n_times
          (define_multiple_responses_returns
            (quantified_response_then
              (quantify_once
                (define_multiple_responses_returns
                  (DynCallPatternBuilder.new PatternMatchMode.InAnyOrder (fun _ => true))
                  1)))
            2)
          2))
      3)
    1

/-- The call pattern registered from the series builder chain. -/
def series_call_pattern : CallPattern Unit (Responder Unit Nat) :=
  { input_matcher := fun _ => true
    responders := series_clause_builder.responders
    ordered_call_index_range := (0, 4) }

/-- C7: the pattern built as
`returns(1).once().then().returns(2).n_times(2).then().returns(3).at_least_times(1)`
records its responders at response indices 0, 1 and 3, seven successive calls
yield the outputs 1, 2, 2, 3, 3, 3, 3 in that order, and
`select_responder_for_call` keeps selecting the last responder for every call
index past its response index. -/
theorem claim_C7 :
    series_clause_builder.responders =
      [⟨0, Responder.Value (StoredValue.Slot 1)⟩,
       ⟨1, Responder.Value (StoredValue.Slot 2)⟩,
       ⟨3, Responder.Value (StoredValue.Slot 3)⟩] ∧
    run_series () 7 series_clause_builder.responders 0 =
      [some 1, some 2, some 2, some 3, some 3, some 3, some 3] ∧
    (select_responder_for_call series_call_pattern 0).1 =
      some (Responder.Value (StoredValue.Slot 1)) ∧
    (select_responder_for_call series_call_pattern 1).1 =
      some (Responder.Value (StoredValue.Slot 2)) ∧
    (select_responder_for_call series_call_pattern 2).1 =
      some (Responder.Value (StoredValue.Slot 2)) ∧
    (select_responder_for_call series_call_pattern 3).1 =
      some (Responder.Value (StoredValue.Slot 3)) ∧
    (select_responder_for_call series_call_pattern 4).1 =
      some (Responder.Value (StoredValue.Slot 3)) ∧
    (select_responder_for_call series_call_pattern 5).1 =
      some (Responder.Value (StoredValue.Slot 3)) ∧
    (select_responder_for_call series_call_pattern 6).1 =
      some (Responder.Value (StoredValue.Slot 3)) :=
  ⟨rfl, rfl, rfl, rfl, rfl, rfl, rfl, rfl, rfl⟩

end Unimock

namespace Unimock

/-- C8 counterexample: a `QuantifyReturnValue` holding the non-cloneable
value 42, dropped without any explicit quantify step while borrowed in a
stubbing clause (`Drop for QuantifyReturnValue`, build.rs lines 449–464),
pushes the once-only responder but performs no `quantify` call: the
registered pattern's accumulated count expectation is still the default, and
a call count of zero satisfies it — contradicting the claim that the
Quantification then requires exactly one call so that a zero-call
registration cannot pass verification. -/
theorem claim_C8_counterexample :
    (quantify_return_value_drop (define_response_returns
        (DynCallPatternBuilder.new PatternMatchMode.InAnyOrder
          (fun (_ : Unit) => true)) (42 : Nat))).responders =
      [⟨0, Responder.Value (StoredValue.SlotOnce (some 42))⟩] ∧
    (quantify_return_value_drop (define_response_returns
        (DynCallPatternBuilder.new PatternMatchMode.InAnyOrder
          (fun (_ : Unit) => true)) (42 : Nat))).count_expectation = none ∧
    is_satisfied (quantify_return_value_drop (define_response_returns
        (DynCallPatternBuilder.new PatternMatchMode.InAnyOrder
          (fun (_ : Unit) => true)) (42 : Nat))).count_expectation 0 = true :=
  ⟨rfl, rfl, rfl⟩

/-- C8 (amended): a `QuantifyReturnValue` holding a single non-cloneable
owned value and finalized without any explicit quantify step always registers
a once-only responder (`StoredValueSlotOnce`) for the value at response index
0; the accumulated Quantification requires exactly one call — so that a
zero-call registration cannot pass verification — only on the terminal-clause
path (`ClauseSealed::deconstruct` runs `self.once()`, quantifying 1 with
`Exact`); on the `Drop` path (a builder left unquantified inside a stubbing
clause) no `quantify` runs and the count expectation keeps its zero-call
tolerant default. -/
theorem claim_C8 {I V : Type} (matcher : I → Bool) (mode : PatternMatchMode) (v : V) :
    (quantify_return_value_drop (define_response_returns
        (DynCallPatternBuilder.new mode matcher) v)).responders =
      [⟨0, Responder.Value (StoredValue.SlotOnce (some v))⟩] ∧
    (quantify_return_value_drop (define_response_returns
        (DynCallPatternBuilder.new mode matcher) v)).count_expectation = none ∧
    is_satisfied (quantify_return_value_drop (define_response_returns
        (DynCallPatternBuilder.new mode matcher) v)).count_expectation 0 = true ∧
    quantify_return_value_deconstruct (define_response_returns
        (DynCallPatternBuilder.new mode matcher) v) =
      some
        { pattern_match_mode := mode
          input_matcher := matcher
          responders := [⟨0, Responder.Value (StoredValue.SlotOnce (some v))⟩]
          count_expectation := some (1, Exactness.Exact)
          current_response_index := 1 } ∧
    is_satisfied (some (1, Exactness.Exact)) 0 = false ∧
    is_satisfied (some (1, Exactness.Exact)) 1 = true :=
  ⟨rfl, rfl, rfl, rfl, rfl, rfl⟩

end Unimock
